import Mathlib

/-!
Shallow Lean 4 embedding of the render-job orchestration layer implemented in
src/render-server.js of the heygen-CMS repository, together with theorems
settling the specification claims about it.

Modelling conventions:
* JavaScript numbers are modelled as exact rationals; the real-valued
  decibel-to-gain conversion Math.pow(10, db / 20) appears in theorem
  statements through Real exponentiation.
* JavaScript Map objects are modelled as association lists with the
  alGet / alSet / alRemove operations (insertion-order preserving, as Map is).
* The file-system contents relevant to the normalization cache are modelled as
  the list of cache file paths currently present; the sha256 content hash of a
  source file (hashFile) is abstracted as an opaque string parameter
  (identical source bytes yield the identical hash string).
* The asynchronous scheduler is modelled as a transition relation Step whose
  constructors correspond to the synchronous blocks the Node.js event loop
  executes between await points in processQueue, enqueueJob and cancelJob.
-/

namespace RenderServer

/-! ## Filename handling (sanitizeName, path.basename, getAssetIdFromPath) -/

/-- Characters the regex `[^a-zA-Z0-9._-]` of `sanitizeName` leaves in place. -/
def isAllowedChar (c : Char) : Bool :=
  (('a' ≤ c && c ≤ 'z') || ('A' ≤ c && c ≤ 'Z') || ('0' ≤ c && c ≤ '9')
    || c = '.' || c = '_' || c = '-')

/-- `sanitizeName` from src/render-server.js: replace every disallowed
character by an underscore, keep at most 160 characters, and fall back to
"asset" when the result is empty. -/
def sanitizeName (value : String) : String :=
  let sliced := String.mk ((value.data.map fun c => if isAllowedChar c then c else '_').take 160)
  if sliced = "" then "asset" else sliced

/-- The characters of the last '/'-separated path component. -/
def lastComponentAux : List Char → List Char → List Char
  | [], acc => acc.reverse
  | c :: rest, acc =>
    if c = '/' then lastComponentAux rest [] else lastComponentAux rest (c :: acc)

/-- POSIX `path.basename` restricted to paths without trailing slashes:
the component after the last '/'. -/
def basename (p : String) : String :=
  String.mk (lastComponentAux p.data [])

/-- `getAssetIdFromPath` from src/render-server.js: the sanitized filename
portion before the first dash, or "asset" when the dash is missing or at
index 0 (`dashIndex <= 0`). -/
def getAssetIdFromPath (filePath : String) : String :=
  let base := basename filePath
  match base.data.findIdx? (fun c => c = '-') with
  | none => "asset"
  | some 0 => "asset"
  | some i =>
    let s := sanitizeName (String.mk (base.data.take i))
    if s = "" then "asset" else s

/-- CACHE_VIDEO_DIR, relative to the server root directory. -/
def cacheVideoDir : String := "renders/cache/video"

/-- CACHE_AUDIO_DIR, relative to the server root directory. -/
def cacheAudioDir : String := "renders/cache/audio"

/-- The video cache artifact path computed in `normalizeVideoTo24Fps`:
path.join(CACHE_VIDEO_DIR, assetId ++ "-" ++ inputHash ++ "-cfr24.mp4"). -/
def cacheVideoArtifactPath (inputPath inputHash : String) : String :=
  cacheVideoDir ++ "/" ++ (getAssetIdFromPath inputPath ++ "-" ++ inputHash ++ "-cfr24.mp4")

/-- The audio cache artifact path computed in `transcodeAudioToWav`:
path.join(CACHE_AUDIO_DIR, assetId ++ "-" ++ inputHash ++ "-48k.wav"). -/
def cacheAudioArtifactPath (inputPath inputHash : String) : String :=
  cacheAudioDir ++ "/" ++ (getAssetIdFromPath inputPath ++ "-" ++ inputHash ++ "-48k.wav")

/-! ## Probe results and the normalization fast path -/

/-- The audio entry of a `probeMedia` result. -/
structure AudioMeta where
  codec : Option String
  sampleRate : ℚ
  channels : ℚ
deriving DecidableEq

/-- The video entry of a `probeMedia` result; `avgFps` and `rFps` carry the
`parseRatio(...) || 0` fallback already applied (a missing or unparseable
rate probes as 0). -/
structure VideoMeta where
  codec : Option String
  pixFmt : Option String
  avgFps : ℚ
  rFps : ℚ
deriving DecidableEq

/-- A `probeMedia` result. -/
structure MediaMeta where
  duration : ℚ
  video : Option VideoMeta
  audio : Option AudioMeta
deriving DecidableEq

/-- The default tolerance (epsilon = 0.05) of `isNearly`. -/
def defaultEpsilon : ℚ := 5 / 100

/-- `isNearly(a, b, epsilon)` from src/render-server.js. -/
def isNearly (a b tol : ℚ) : Bool :=
  decide (|a - b| ≤ tol)

/-- The fast-path condition of `normalizeVideoTo24Fps` exactly as coded:
`meta.video && codec === 'h264' && pixFmt === 'yuv420p' &&
isNearly(avgFps, 24) && isNearly(rFps || avgFps, avgFps)`.
The JavaScript `||` makes the last check compare `avgFps` with itself when
`rFps` is falsy (probes as 0). -/
def videoFastPath (meta : MediaMeta) : Bool :=
  match meta.video with
  | none => false
  | some v =>
    decide (v.codec = some "h264") && decide (v.pixFmt = some "yuv420p")
      && isNearly v.avgFps 24 defaultEpsilon
      && isNearly (if v.rFps = 0 then v.avgFps else v.rFps) v.avgFps defaultEpsilon

/-- The observable outcome of one `normalizeVideoTo24Fps` /
`transcodeAudioToWav` call: return the source unchanged, serve an existing
cache artifact, or invoke one ffmpeg transcode producing the artifact. -/
inductive NormAction where
  | sourceUnchanged (path : String)
  | cacheHit (artifactPath : String)
  | transcode (artifactPath : String)
deriving DecidableEq

/-- The path the call resolves to, in every case. -/
def NormAction.resolvedPath : NormAction → String
  | .sourceUnchanged p => p
  | .cacheHit p => p
  | .transcode p => p

/-- `normalizeVideoTo24Fps` from src/render-server.js, with the probe result,
the content hash of the input bytes and the set of files present in the cache
made explicit: fast path when the probe satisfies `videoFastPath`, otherwise
the content-addressed artifact path is served if present (`fileExists`) and
produced by one ffmpeg invocation if not. -/
def normalizeVideoPlan (meta : MediaMeta) (inputPath contentHash : String)
    (cacheFiles : List String) : NormAction :=
  if videoFastPath meta then .sourceUnchanged inputPath
  else
    let outputPath := cacheVideoArtifactPath inputPath contentHash
    if cacheFiles.contains outputPath then .cacheHit outputPath
    else .transcode outputPath

/-- `transcodeAudioToWav` from src/render-server.js: no fast path; the
artifact is served if present and produced by one ffmpeg invocation if not. -/
def transcodeAudioPlan (inputPath contentHash : String)
    (cacheFiles : List String) : NormAction :=
  let outputPath := cacheAudioArtifactPath inputPath contentHash
  if cacheFiles.contains outputPath then .cacheHit outputPath
  else .transcode outputPath

/-- The output location handed to the spawned ffmpeg process: the code pushes
the final cache `outputPath` itself onto the argument list (`args.push(outputPath)`);
no temporary name and no rename are involved. -/
def ffmpegTarget : NormAction → Option String
  | .transcode p => some p
  | _ => none

/-- Cache contents after a transcode whose ffmpeg process exits non-zero or is
killed mid-write (runFfmpeg rejects, the exception propagates, and
src/render-server.js performs no cleanup): the external process has already
created its output file at the target path it was given, so the partially
written file stays there. -/
def cacheAfterFailedTranscode (a : NormAction) (cacheFiles : List String) : List String :=
  match a with
  | .transcode p => p :: cacheFiles
  | _ => cacheFiles

/-! ## Background-music volume resolution -/

/-- MIN_DB / MAX_DB clamping inside `dbToGain`:
Math.min(MAX_DB, Math.max(MIN_DB, value)). -/
def clampDb (x : ℚ) : ℚ :=
  min 20 (max (-20) x)

/-- The bgm fields `resolveVolumeGain` inspects. A field is `some q` exactly
when `Number.isFinite(Number(field))` holds in the code, with `q` the coerced
numeric value; `none` covers an absent or non-finite field. -/
structure Bgm where
  volumeDb : Option ℚ
  volume : Option ℚ
deriving DecidableEq

/-- The number `resolveVolumeGain` returns, kept symbolic because the decibel
branch denotes the real number 10 ^ (clampedDb / 20) (Math.pow(10, clampDb(db)/20)),
which is irrational in general: `db e` denotes 10 ^ (e / 20), `linear v`
denotes `v` itself, `unit` denotes 1. -/
inductive Gain where
  | db (clampedDb : ℚ)
  | linear (v : ℚ)
  | unit
deriving DecidableEq

/-- `resolveVolumeGain` from src/render-server.js: a falsy bgm resolves to 1;
a finite `volumeDb` wins and is clamped to [-20, 20] before the power; else a
finite `volume` is returned as-is; else 1. -/
def resolveVolumeGain : Option Bgm → Gain
  | none => .unit
  | some b =>
    match b.volumeDb with
    | some d => .db (clampDb d)
    | none =>
      match b.volume with
      | some v => .linear v
      | none => .unit

/-! ## Jobs, the job store and startup recovery -/

/-- The seven job status strings src/render-server.js ever stores. -/
inductive JStatus where
  | queued
  | normalizing
  | rendering
  | cancelling
  | completed
  | failed
  | cancelled
deriving DecidableEq

/-- statuses counted as in-flight both by `loadJobsFromDisk`
('rendering' || 'queued' || 'normalizing' || 'cancelling') and by
`hasActiveWork` ('queued' || 'normalizing' || 'rendering' || 'cancelling'). -/
def isNonTerminalStatus : JStatus → Bool
  | .queued => true
  | .normalizing => true
  | .rendering => true
  | .cancelling => true
  | _ => false

/-- the statuses occupied only while a job holds the single render slot. -/
def JStatus.isActive : JStatus → Bool
  | .normalizing => true
  | .rendering => true
  | _ => false

/-- The job-record fields the claims are about (status, progress, error,
outputUrl); `updateJob` merge semantics keep the remaining fields intact and
are modelled by record updates. -/
structure Job where
  status : JStatus
  progress : ℤ
  error : Option String
  outputUrl : Option String
deriving DecidableEq

/-- The empty record `{}` that `updateJob` spreads when the job id is absent
from the map (none of the modelled call sites hits this case with a field
left unset that the claims read). -/
def defaultJob : Job :=
  { status := .queued, progress := 0, error := none, outputUrl := none }

/-- Map.get on an association list. -/
def alGet {α : Type} (k : String) : List (String × α) → Option α
  | [] => none
  | (k', v) :: rest => if k' = k then some v else alGet k rest

/-- Map.set on an association list: replace the binding in place, append when
absent (JavaScript Map keeps insertion order). -/
def alSet {α : Type} (k : String) (v : α) : List (String × α) → List (String × α)
  | [] => [(k, v)]
  | (k', v') :: rest => if k' = k then (k, v) :: rest else (k', v') :: alSet k v rest

/-- Map.delete on an association list. -/
def alRemove {α : Type} (k : String) : List (String × α) → List (String × α)
  | [] => []
  | (k', v) :: rest => if k' = k then rest else (k', v) :: alRemove k rest

/-- `updateJob(jobId, updates)`: merge the updates into the current record
(`jobs.get(jobId) || {}`) and store the result. The debounced persistence it
schedules is not observable in the claims. -/
def updateJob (jid : String) (f : Job → Job) (jobs : List (String × Job)) :
    List (String × Job) :=
  alSet jid (f ((alGet jid jobs).getD defaultJob)) jobs

/-- The error message `loadJobsFromDisk` attaches to restart-orphaned jobs. -/
def restartMessage : String := "Render server restarted before completion."

/-- The second pass of `loadJobsFromDisk`: any job reloaded in a non-terminal
status is updated (merge) to failed with the restart message; terminal jobs
are left untouched. -/
def markRestartFailed (job : Job) : Job :=
  if isNonTerminalStatus job.status then
    { job with status := .failed, error := some restartMessage }
  else job

/-- One entry of the persisted jobs.json array: the jobId column plus the
spread job record. -/
structure PersistedJob where
  jobId : String
  job : Job
deriving DecidableEq

/-- The first pass of `loadJobsFromDisk`: `parsed.forEach` inserting each
record into the (initially empty) jobs map, skipping records with a falsy
jobId. -/
def insertRecords : List PersistedJob → List (String × Job) → List (String × Job)
  | [], acc => acc
  | r :: rest, acc =>
    insertRecords rest (if r.jobId = "" then acc else alSet r.jobId r.job acc)

/-- `loadJobsFromDisk` over an already-parsed persisted job table: load every
record, then force every non-terminal status to failed with the restart
message. -/
def loadJobsFromDisk (records : List PersistedJob) : List (String × Job) :=
  (insertRecords records []).map (fun e => (e.1, markRestartFailed e.2))

/-! ## The render scheduler -/

/-- An Active Render Controller: the per-job record created by `processQueue`.
The engine cancel handle and the child process handle are external effects;
only the cooperative `cancelled` flag is observable state. -/
structure Controller where
  cancelled : Bool
deriving DecidableEq

/-- A freshly created controller: `{ cancelled: false, ... }`. -/
def newController : Controller :=
  { cancelled := false }

/-- The in-memory server state: the `jobs` map, the `jobControllers` map, the
`queue` array (of job ids) and the `isRendering` flag, plus `active`, the job
id held by the in-flight `processQueue` invocation (the local variable `job`
of the async function body), `none` when no invocation is in flight. -/
structure ServerState where
  jobs : List (String × Job)
  controllers : List (String × Controller)
  queue : List String
  isRendering : Bool
  active : Option String
deriving DecidableEq

/-- The state at server start. -/
def initialState : ServerState :=
  { jobs := [], controllers := [], queue := [], isRendering := false, active := none }

/-- The `cancelled` flag of the controller of `jid` (false when absent). -/
def controllerCancelled (jid : String) (s : ServerState) : Bool :=
  match alGet jid s.controllers with
  | some c => c.cancelled
  | none => false

/-- The message written by every cancellation finalization. -/
def cancelMessage : String := "Render cancelled by user."

/-- `enqueueJob`: push the job id, record it as queued at progress 0. -/
def submitState (jid : String) (s : ServerState) : ServerState :=
  let f := fun j => { j with status := JStatus.queued, progress := 0 }
  { s with queue := s.queue ++ [jid], jobs := updateJob jid f s.jobs }

/-- The synchronous prefix of `processQueue` once the guard passed: dequeue,
claim the slot, create the controller, mark the job normalizing at 1%. -/
def startState (jid : String) (rest : List String) (s : ServerState) : ServerState :=
  let f := fun j => { j with status := JStatus.normalizing, progress := 1, error := none }
  { s with
    queue := rest,
    isRendering := true,
    active := some jid,
    controllers := alSet jid newController s.controllers,
    jobs := updateJob jid f s.jobs }

/-- The `finally` block of `processQueue`: release the slot and drop the
controller (the recursive `processQueue()` call it makes is a later `start`
step). -/
def releaseSlot (jid : String) (s : ServerState) : ServerState :=
  { s with isRendering := false, controllers := alRemove jid s.controllers, active := none }

/-- A `controller.cancelled` checkpoint that fires: mark the job cancelled and
run the `finally` block. -/
def cancelFinishState (jid : String) (s : ServerState) : ServerState :=
  let f := fun j => { j with status := JStatus.cancelled, error := some cancelMessage }
  releaseSlot jid { s with jobs := updateJob jid f s.jobs }

/-- The transition to the render phase: status rendering, progress 5. -/
def renderingState (jid : String) (s : ServerState) : ServerState :=
  let f := fun j => { j with status := JStatus.rendering, progress := 5, error := none }
  { s with jobs := updateJob jid f s.jobs }

/-- The `onProgress` callback body of `renderMedia`: when the cancellation
flag is set the update is suppressed, otherwise the engine's fractional
progress is mapped into [5, 100] and stored. -/
def onRenderProgress (cancelled : Bool) (p : ℚ) (j : Job) : Job :=
  if cancelled then j
  else { j with progress := min 100 (max 5 (round ((5 : ℚ) + p * 95))) }

/-- One progress callback arriving while `jid` renders. -/
def progressState (jid : String) (p : ℚ) (s : ServerState) : ServerState :=
  if controllerCancelled jid s then s
  else { s with jobs := updateJob jid (onRenderProgress false p) s.jobs }

/-- Successful completion of `renderMedia`: completed, progress 100, download
URL, then the `finally` block. -/
def completeState (jid : String) (s : ServerState) : ServerState :=
  let f := fun j => { j with status := JStatus.completed, progress := 100,
                             outputUrl := some ("/api/download/" ++ jid) }
  releaseSlot jid { s with jobs := updateJob jid f s.jobs }

/-- The `catch` block of `processQueue`: the terminal status and error text
depend only on the controller's cancellation flag. -/
def finalizeOnError (cancelled : Bool) (message : String) : JStatus × String :=
  if cancelled then (.cancelled, cancelMessage)
  else (.failed, message)

/-- A throw from the pipeline: run the `catch` block with the flag read at
that instant, then the `finally` block. -/
def finishErrorState (jid : String) (msg : String) (s : ServerState) : ServerState :=
  let f := fun j => { j with
    status := (finalizeOnError (controllerCancelled jid s) msg).1,
    error := some (finalizeOnError (controllerCancelled jid s) msg).2 }
  releaseSlot jid { s with jobs := updateJob jid f s.jobs }

/-- The result object `cancelJob` returns. -/
structure CancelResult where
  ok : Bool
  message : String
deriving DecidableEq

/-- `queue.splice(queuedIndex, 1)` after `queue.findIndex`: drop the first
occurrence. -/
def removeFirst (jid : String) : List String → List String
  | [] => []
  | x :: xs => if x = jid then xs else x :: removeFirst jid xs

/-- The controller branch of `cancelJob`: when a controller is registered for
the job, set its cancellation flag (the engine cancel handle and the SIGKILL
of the active child process are external effects) and mark the job
cancelling; otherwise nothing changes. -/
def cancelFlagState (jid : String) (s : ServerState) : ServerState :=
  match alGet jid s.controllers with
  | some c =>
    { s with
      controllers := alSet jid { c with cancelled := true } s.controllers,
      jobs := updateJob jid (fun j => { j with status := JStatus.cancelling, error := none }) s.jobs }
  | none => s

/-- The queued branch of `cancelJob`: splice the job out of the queue and mark
it cancelled directly. -/
def cancelQueueState (jid : String) (s1 : ServerState) : ServerState :=
  { s1 with
    queue := removeFirst jid s1.queue,
    jobs := updateJob jid (fun j => { j with status := JStatus.cancelled, error := some cancelMessage }) s1.jobs }

/-- `cancelJob` from src/render-server.js (synchronous): unknown and completed
jobs are refused; already-stopped jobs confirm; otherwise the controller, when
present, gets its flag set and the job is marked cancelling
(`cancelFlagState`); a job still in the queue is then spliced out and marked
cancelled directly (`cancelQueueState`). -/
def cancelJob (jid : String) (s : ServerState) : CancelResult × ServerState :=
  match alGet jid s.jobs with
  | none => (⟨false, "Job not found."⟩, s)
  | some job =>
    if job.status = JStatus.completed then (⟨false, "Job already completed."⟩, s)
    else if job.status = JStatus.failed ∨ job.status = JStatus.cancelled then
      (⟨true, "Job already stopped."⟩, s)
    else if (cancelFlagState jid s).queue.contains jid then
      (⟨true, "Job cancelled."⟩, cancelQueueState jid (cancelFlagState jid s))
    else (⟨true, "Job cancelled."⟩, cancelFlagState jid s)

/-- One synchronous block of the event loop acting on the scheduler state:
submission, the dequeue-and-claim prefix of `processQueue`, its cancellation
checkpoints, phase change, progress callbacks, the terminal blocks, and
`cancelJob`. -/
inductive Step : ServerState → ServerState → Prop where
  | submit (s : ServerState) (jid : String) :
      Step s (submitState jid s)
  | start (s : ServerState) (jid : String) (rest : List String)
      (h1 : s.isRendering = false) (h2 : s.queue = jid :: rest) :
      Step s (startState jid rest s)
  | checkpointCancelled (s : ServerState) (jid : String)
      (h1 : s.active = some jid) (h2 : controllerCancelled jid s = true) :
      Step s (cancelFinishState jid s)
  | toRendering (s : ServerState) (jid : String) (h : s.active = some jid) :
      Step s (renderingState jid s)
  | progressTick (s : ServerState) (jid : String) (p : ℚ) (h : s.active = some jid) :
      Step s (progressState jid p s)
  | finishSuccess (s : ServerState) (jid : String) (h : s.active = some jid) :
      Step s (completeState jid s)
  | finishError (s : ServerState) (jid : String) (msg : String)
      (h : s.active = some jid) :
      Step s (finishErrorState jid msg s)
  | cancelRequest (s : ServerState) (jid : String) :
      Step s (cancelJob jid s).2

/-- States the scheduler can reach from server start under any sequence of
submissions, scheduler progress, completions and cancellations. -/
inductive Reachable : ServerState → Prop where
  | init : Reachable initialState
  | step {s s' : ServerState} : Reachable s → Step s s' → Reachable s'

/-! ## Cache administration -/

/-- `hasActiveWork` from src/render-server.js. -/
def hasActiveWork (s : ServerState) : Bool :=
  if s.isRendering || !s.controllers.isEmpty || !s.queue.isEmpty then true
  else s.jobs.any (fun e => isNonTerminalStatus e.2.status)

/-- The on-disk state the cache-clear endpoint touches, abstracted as the list
of files under the uploads / cache / output / bundle trees plus the jobs file. -/
structure DiskState where
  files : List String
deriving DecidableEq

/-- The HTTP outcome of POST /api/cache/clear. -/
inductive ClearResponse where
  | conflict409
  | cleared
deriving DecidableEq

/-- What one POST /api/cache/clear request produces: the response, the
resulting in-memory state, the resulting disk state, and the ids of the
controllers whose cancel handle / process were forcibly cancelled. -/
structure ClearOutcome where
  response : ClearResponse
  state : ServerState
  disk : DiskState
  cancelledControllers : List String
deriving DecidableEq

/-- The POST /api/cache/clear handler: refuse with 409 when
`hasActiveWork() && !force`, touching nothing; otherwise (when forced) cancel
every registered controller first, then `clearRenderCache` drops all
in-memory job/queue/controller state, clears the busy flag and deletes the
derived directories and the persisted jobs file (the recreated directory
skeleton and rebuilt bundle are abstracted as the empty disk). -/
def clearCacheEndpoint (force : Bool) (s : ServerState) (d : DiskState) : ClearOutcome :=
  if hasActiveWork s && !force then
    { response := .conflict409, state := s, disk := d, cancelledControllers := [] }
  else
    { response := .cleared,
      state := initialState,
      disk := { files := [] },
      cancelledControllers := if force then s.controllers.map Prod.fst else [] }

/-! ## Association-list lemmas -/

theorem alGet_alSet {α : Type} (k k' : String) (v : α) (l : List (String × α)) :
    alGet k (alSet k' v l) = if k' = k then some v else alGet k l := by
  induction l with
  | nil => simp [alGet, alSet]
  | cons hd tl ih =>
    obtain ⟨hk, hv⟩ := hd
    by_cases h1 : hk = k' <;> by_cases h2 : k' = k <;>
      simp_all [alGet, alSet]

theorem alGet_updateJob (k jid : String) (f : Job → Job) (jobs : List (String × Job)) :
    alGet k (updateJob jid f jobs) =
      if jid = k then some (f ((alGet jid jobs).getD defaultJob)) else alGet k jobs := by
  unfold updateJob
  rw [alGet_alSet]

/-! ## The single-render-slot invariant (claim C3) -/

/-- The inductive invariant behind the single-render-slot property: the busy
flag tracks whether a `processQueue` invocation is in flight, and any job in
an active status is the one that invocation owns. -/
def SingleSlotInv (s : ServerState) : Prop :=
  s.isRendering = s.active.isSome ∧
  ∀ jid job, alGet jid s.jobs = some job → job.status.isActive = true →
    s.active = some jid

theorem inv_preserve_aux {s s' : ServerState} (hs : SingleSlotInv s)
    (ha : s'.active = s.active) (hr : s'.isRendering = s.isRendering)
    (jid : String) (f : Job → Job) (hj : s'.jobs = updateJob jid f s.jobs)
    (hf : ∀ j, (f j).status.isActive = true → s.active = some jid) :
    SingleSlotInv s' := by
  constructor
  · rw [hr, ha]; exact hs.1
  · intro k job hk hact
    rw [hj, alGet_updateJob] at hk
    rw [ha]
    by_cases hjk : jid = k
    · rw [if_pos hjk] at hk
      cases hk
      subst hjk
      exact hf _ hact
    · rw [if_neg hjk] at hk
      exact hs.2 k job hk hact

theorem inv_release_aux {s s' : ServerState} {jid : String} (hs : SingleSlotInv s)
    (hactive : s.active = some jid)
    (ha : s'.active = none) (hr : s'.isRendering = false)
    (f : Job → Job) (hj : s'.jobs = updateJob jid f s.jobs)
    (hf : ∀ j, (f j).status.isActive = false) :
    SingleSlotInv s' := by
  constructor
  · rw [hr, ha]; rfl
  · intro k job hk hact
    rw [hj, alGet_updateJob] at hk
    by_cases hjk : jid = k
    · rw [if_pos hjk] at hk
      cases hk
      rw [hf] at hact
      exact absurd hact (by simp)
    · rw [if_neg hjk] at hk
      have hsome := hs.2 k job hk hact
      rw [hactive] at hsome
      cases hsome
      exact absurd rfl hjk

theorem cancelFlagState_inv {jid : String} {s : ServerState} (hs : SingleSlotInv s) :
    SingleSlotInv (cancelFlagState jid s) := by
  unfold cancelFlagState
  cases alGet jid s.controllers with
  | none => exact hs
  | some c =>
    exact inv_preserve_aux hs rfl rfl jid
      (fun j => { j with status := JStatus.cancelling, error := none }) rfl
      (fun _ hact => nomatch hact)

theorem cancelQueueState_inv {jid : String} {s1 : ServerState} (hs : SingleSlotInv s1) :
    SingleSlotInv (cancelQueueState jid s1) :=
  inv_preserve_aux hs rfl rfl jid
    (fun j => { j with status := JStatus.cancelled, error := some cancelMessage }) rfl
    (fun _ hact => nomatch hact)

theorem cancelJob_inv (jid : String) (s : ServerState) (hs : SingleSlotInv s) :
    SingleSlotInv (cancelJob jid s).2 := by
  unfold cancelJob
  cases hjob : alGet jid s.jobs with
  | none => exact hs
  | some job =>
    by_cases hcomp : job.status = JStatus.completed
    · simp only [if_pos hcomp]; exact hs
    · simp only [if_neg hcomp]
      by_cases hstop : job.status = JStatus.failed ∨ job.status = JStatus.cancelled
      · simp only [if_pos hstop]; exact hs
      · simp only [if_neg hstop]
        by_cases hq : (cancelFlagState jid s).queue.contains jid = true
        · simp only [hq, if_true]
          exact cancelQueueState_inv (cancelFlagState_inv hs)
        · simp only [hq, if_false]
          exact cancelFlagState_inv hs

theorem singleSlotInv_step {s s' : ServerState} (hs : SingleSlotInv s)
    (hstep : Step s s') : SingleSlotInv s' := by
  cases hstep with
  | submit jid =>
    exact inv_preserve_aux hs rfl rfl jid
      (fun j => { j with status := JStatus.queued, progress := 0 }) rfl
      (fun _ hact => nomatch hact)
  | start jid rest h1 h2 =>
    constructor
    · rfl
    · intro k job hk hact
      have hjobs : (startState jid rest s).jobs =
          updateJob jid
            (fun j => { j with status := JStatus.normalizing, progress := 1, error := none })
            s.jobs := rfl
      rw [hjobs, alGet_updateJob] at hk
      by_cases hjk : jid = k
      · subst hjk; rfl
      · rw [if_neg hjk] at hk
        have hsome := hs.2 k job hk hact
        have hnone : s.active.isSome = false := by rw [← hs.1, h1]
        rw [hsome] at hnone
        simp at hnone
  | checkpointCancelled jid h1 h2 =>
    exact inv_release_aux hs h1 rfl rfl
      (fun j => { j with status := JStatus.cancelled, error := some cancelMessage }) rfl
      (fun j => rfl)
  | toRendering jid h =>
    exact inv_preserve_aux hs rfl rfl jid
      (fun j => { j with status := JStatus.rendering, progress := 5, error := none }) rfl
      (fun j _ => h)
  | progressTick jid p h =>
    by_cases hc : controllerCancelled jid s = true
    · have heq : progressState jid p s = s := by
        unfold progressState
        rw [if_pos hc]
      rw [heq]; exact hs
    · have heq : progressState jid p s =
          { s with jobs := updateJob jid (onRenderProgress false p) s.jobs } := by
        unfold progressState
        rw [if_neg hc]
      rw [heq]
      exact inv_preserve_aux hs rfl rfl jid (onRenderProgress false p) rfl (fun j _ => h)
  | finishSuccess jid h =>
    exact inv_release_aux hs h rfl rfl
      (fun j => { j with status := JStatus.completed, progress := 100,
                         outputUrl := some ("/api/download/" ++ jid) }) rfl
      (fun j => rfl)
  | finishError jid msg h =>
    refine inv_release_aux hs h rfl rfl
      (fun j => { j with
        status := (finalizeOnError (controllerCancelled jid s) msg).1,
        error := some (finalizeOnError (controllerCancelled jid s) msg).2 }) rfl
      (fun j => ?_)
    cases hc : controllerCancelled jid s <;>
      simp [finalizeOnError, hc, JStatus.isActive]
  | cancelRequest jid =>
    exact cancelJob_inv jid s hs

theorem reachable_inv {s : ServerState} (h : Reachable s) : SingleSlotInv s := by
  induction h with
  | init =>
    constructor
    · rfl
    · intro jid job hk
      simp [initialState, alGet] at hk
  | step _ hstep ih => exact singleSlotInv_step ih hstep

/-- Claim C3: for every reachable state of the scheduler, under any sequence
of submissions, cancellations, scheduler progress and job completions, at
most one job has status normalizing or rendering: `processQueue` starts a
dequeued job only when the `isRendering` flag is clear, and the flag is
released (in its `finally` block) only when that job has reached a terminal
status. -/
theorem scheduler_single_active_job (s : ServerState) (h : Reachable s)
    (j1 j2 : String) (job1 job2 : Job)
    (h1 : alGet j1 s.jobs = some job1) (ha1 : job1.status.isActive = true)
    (h2 : alGet j2 s.jobs = some job2) (ha2 : job2.status.isActive = true) :
    j1 = j2 := by
  have inv := reachable_inv h
  have e1 := inv.2 j1 job1 h1 ha1
  have e2 := inv.2 j2 job2 h2 ha2
  rw [e1] at e2
  exact Option.some.inj e2

/-- The state reached by submitting job "j1" and letting `processQueue`
dequeue it: "j1" is normalizing. -/
def c3WitnessState : ServerState :=
  startState "j1" [] (submitState "j1" initialState)

theorem scheduler_single_active_job_witness : "j1" = "j1" :=
  scheduler_single_active_job c3WitnessState
    (Reachable.step
      (Reachable.step Reachable.init (Step.submit initialState "j1"))
      (Step.start (submitState "j1" initialState) "j1" [] rfl rfl))
    "j1" "j1"
    { status := JStatus.normalizing, progress := 1, error := none, outputUrl := none }
    { status := JStatus.normalizing, progress := 1, error := none, outputUrl := none }
    (by decide) (by decide) (by decide) (by decide)

/-! ## Startup recovery (claim C4) -/

theorem alGet_insertRecords_of_absent (k : String) :
    ∀ (l : List PersistedJob) (acc : List (String × Job)),
      (∀ r ∈ l, r.jobId ≠ k) →
      alGet k (insertRecords l acc) = alGet k acc
  | [], _, _ => rfl
  | r :: t, acc, h => by
    simp only [insertRecords]
    rw [alGet_insertRecords_of_absent k t _
      (fun r' hr' => h r' (List.mem_cons_of_mem _ hr'))]
    by_cases he : r.jobId = ""
    · rw [if_pos he]
    · rw [if_neg he, alGet_alSet, if_neg (h r (List.mem_cons_self r t))]

theorem alGet_insertRecords_of_mem (k : String) :
    ∀ (l : List PersistedJob) (acc : List (String × Job)) (r : PersistedJob),
      r ∈ l → r.jobId = k → k ≠ "" →
      List.Pairwise (fun a b => a.jobId ≠ b.jobId) l →
      alGet k (insertRecords l acc) = some r.job
  | [], _, r, hr, _, _, _ => absurd hr (List.not_mem_nil r)
  | x :: t, acc, r, hr, hk, hne, hp => by
    simp only [insertRecords]
    rcases List.mem_cons.mp hr with heq | hmem
    · subst heq
      have hnot : ∀ r' ∈ t, r'.jobId ≠ k := by
        intro r' hr'
        have hxy := (List.pairwise_cons.mp hp).1 r' hr'
        rw [hk] at hxy
        exact fun hcontra => hxy hcontra.symm
      rw [alGet_insertRecords_of_absent k t _ hnot]
      have hne' : ¬ r.jobId = "" := by rw [hk]; exact hne
      rw [if_neg hne', alGet_alSet, if_pos hk]
    · exact alGet_insertRecords_of_mem k t _ r hmem hk hne (List.pairwise_cons.mp hp).2

theorem alGet_map_markRestartFailed (k : String) :
    ∀ l : List (String × Job),
      alGet k (l.map (fun e => (e.1, markRestartFailed e.2))) =
        (alGet k l).map markRestartFailed
  | [] => rfl
  | e :: t => by
    simp only [List.map, alGet]
    by_cases h : e.1 = k
    · rw [if_pos h, if_pos h]
      rfl
    · rw [if_neg h, if_neg h]
      exact alGet_map_markRestartFailed k t

/-- Claim C4: after loading any persisted job table (a table keyed by job id:
distinct, non-empty ids), every persisted job is present in the store; every
job persisted in a non-terminal status (queued, normalizing, rendering,
cancelling) is reloaded as failed with the restart error message; every job
persisted in a terminal status keeps its persisted record unchanged. -/
theorem loadJobs_recovery (records : List PersistedJob)
    (hdist : List.Pairwise (fun a b => a.jobId ≠ b.jobId) records)
    (r : PersistedJob) (hr : r ∈ records) (hne : r.jobId ≠ "") :
    alGet r.jobId (loadJobsFromDisk records) ≠ none ∧
    (isNonTerminalStatus r.job.status = true →
      alGet r.jobId (loadJobsFromDisk records) =
        some { r.job with status := JStatus.failed, error := some restartMessage }) ∧
    (isNonTerminalStatus r.job.status = false →
      alGet r.jobId (loadJobsFromDisk records) = some r.job) := by
  have hbase : alGet r.jobId (insertRecords records []) = some r.job :=
    alGet_insertRecords_of_mem r.jobId records [] r hr rfl hne hdist
  have hload : alGet r.jobId (loadJobsFromDisk records) = some (markRestartFailed r.job) := by
    unfold loadJobsFromDisk
    rw [alGet_map_markRestartFailed, hbase]
    rfl
  refine ⟨by rw [hload]; simp, ?_, ?_⟩
  · intro hnt
    rw [hload]
    unfold markRestartFailed
    rw [if_pos hnt]
  · intro ht
    rw [hload]
    unfold markRestartFailed
    rw [if_neg (by rw [ht]; exact Bool.false_ne_true)]

/-- A persisted table with one job interrupted mid-render and one completed. -/
def c4Records : List PersistedJob :=
  [ { jobId := "a",
      job := { status := JStatus.rendering, progress := 55, error := none, outputUrl := none } },
    { jobId := "b",
      job := { status := JStatus.completed, progress := 100, error := none,
               outputUrl := some "/api/download/b" } } ]

theorem loadJobs_recovery_witness :
    alGet "a" (loadJobsFromDisk c4Records) ≠ none ∧
    (isNonTerminalStatus JStatus.rendering = true →
      alGet "a" (loadJobsFromDisk c4Records) =
        some { status := JStatus.failed, progress := 55, error := some restartMessage,
               outputUrl := none }) ∧
    (isNonTerminalStatus JStatus.rendering = false →
      alGet "a" (loadJobsFromDisk c4Records) =
        some { status := JStatus.rendering, progress := 55, error := none, outputUrl := none }) :=
  loadJobs_recovery c4Records (by decide)
    { jobId := "a",
      job := { status := JStatus.rendering, progress := 55, error := none, outputUrl := none } }
    (by decide) (by decide)

/-! ## The normalization fast path (claim C5) -/

theorem isNearly_refl (a : ℚ) : isNearly a a defaultEpsilon = true := by
  unfold isNearly defaultEpsilon
  rw [decide_eq_true_eq, sub_self, abs_zero]
  norm_num

theorem isNearly_30_24 : isNearly 30 24 defaultEpsilon = false := by
  unfold isNearly defaultEpsilon
  rw [decide_eq_false_iff_not]
  rw [show ((30 : ℚ) - 24) = 6 by norm_num]
  rw [show |(6 : ℚ)| = 6 from abs_of_nonneg (by norm_num)]
  norm_num

theorem isNearly_0_24 : isNearly 0 24 defaultEpsilon = false := by
  unfold isNearly defaultEpsilon
  rw [decide_eq_false_iff_not]
  rw [show ((0 : ℚ) - 24) = -24 by norm_num]
  rw [show |(-24 : ℚ)| = 24 from by rw [abs_neg]; exact abs_of_nonneg (by norm_num)]
  norm_num

/-- The fast-path condition as claim C5 states it (the spec's words): the
declared frame rate itself must be within epsilon of the average frame rate.
Kept for comparison with `videoFastPath`, the condition the code computes. -/
def videoFastPathSpec (meta : MediaMeta) : Bool :=
  match meta.video with
  | none => false
  | some v =>
    decide (v.codec = some "h264") && decide (v.pixFmt = some "yuv420p")
      && isNearly v.avgFps 24 defaultEpsilon
      && isNearly v.rFps v.avgFps defaultEpsilon

/-- The amended fast-path condition: as claim C5, except that the
declared/average agreement check is vacuous when the declared frame rate
probes as 0 (missing or unparseable r_frame_rate), because the code reads
`rFps || avgFps`. -/
def videoFastPathAmended (meta : MediaMeta) : Bool :=
  match meta.video with
  | none => false
  | some v =>
    decide (v.codec = some "h264") && decide (v.pixFmt = some "yuv420p")
      && isNearly v.avgFps 24 defaultEpsilon
      && (decide (v.rFps = 0) || isNearly v.rFps v.avgFps defaultEpsilon)

theorem videoFastPath_eq_amended (meta : MediaMeta) :
    videoFastPath meta = videoFastPathAmended meta := by
  cases hm : meta.video with
  | none => simp [videoFastPath, videoFastPathAmended, hm]
  | some v =>
    simp only [videoFastPath, videoFastPathAmended, hm]
    by_cases h0 : v.rFps = 0
    · rw [if_pos h0, isNearly_refl, decide_eq_true h0]
      simp
    · rw [if_neg h0, decide_eq_false h0]
      simp

/-- A probe result on which the code takes the fast path although the
declared frame rate (0, i.e. missing) is not within epsilon of the average
frame rate (24). -/
def rFpsZeroMeta : MediaMeta :=
  { duration := 5,
    video := some { codec := some "h264", pixFmt := some "yuv420p", avgFps := 24, rFps := 0 },
    audio := none }

theorem videoFastPath_rFpsZero : videoFastPath rFpsZeroMeta = true := by
  simp only [videoFastPath, rFpsZeroMeta]
  simp [isNearly_refl]

theorem videoFastPathSpec_rFpsZero : videoFastPathSpec rFpsZeroMeta = false := by
  simp only [videoFastPathSpec, rFpsZeroMeta]
  rw [isNearly_0_24]
  simp

/-- Claim C5 counterexample: on `rFpsZeroMeta`, `normalizeVideoTo24Fps`
returns the source path unchanged although the condition stated by the claim
(declared frame rate within epsilon 0.05 of the average frame rate) is false
there, so the "exactly when" of the claim fails. -/
theorem normalizeVideo_fastpath_cx :
    normalizeVideoPlan rFpsZeroMeta "a-v.mp4" "h1" [] = NormAction.sourceUnchanged "a-v.mp4" ∧
    videoFastPathSpec rFpsZeroMeta = false := by
  constructor
  · unfold normalizeVideoPlan
    rw [if_pos videoFastPath_rFpsZero]
  · exact videoFastPathSpec_rFpsZero

/-- Claim C5 (amended): `normalizeVideoTo24Fps` returns the source path
unchanged exactly when the probe reports an h264 / yuv420p video stream whose
average frame rate is within epsilon 0.05 of 24 and whose declared frame rate
either probes as 0 or is within epsilon 0.05 of the average frame rate; for
every other probe result it resolves to the content-addressed path in the
video cache directory instead. -/
theorem normalizeVideo_fastpath_iff (meta : MediaMeta) (p h : String) (fs : List String) :
    (normalizeVideoPlan meta p h fs = NormAction.sourceUnchanged p ↔
      videoFastPathAmended meta = true) ∧
    (videoFastPathAmended meta = false →
      (normalizeVideoPlan meta p h fs).resolvedPath = cacheVideoArtifactPath p h) := by
  cases hfp : videoFastPathAmended meta with
  | true =>
    have hv : videoFastPath meta = true := by rw [videoFastPath_eq_amended, hfp]
    constructor
    · constructor
      · intro _
        rfl
      · intro _
        unfold normalizeVideoPlan
        rw [if_pos hv]
    · intro hcontra
      exact Bool.noConfusion hcontra
  | false =>
    have hv : ¬ videoFastPath meta = true := by
      rw [videoFastPath_eq_amended, hfp]
      exact Bool.false_ne_true
    constructor
    · constructor
      · intro hplan
        unfold normalizeVideoPlan at hplan
        rw [if_neg hv] at hplan
        by_cases hc : fs.contains (cacheVideoArtifactPath p h) = true
        · rw [if_pos hc] at hplan
          cases hplan
        · rw [if_neg hc] at hplan
          cases hplan
      · intro hcontra
        exact Bool.noConfusion hcontra
    · intro _
      unfold normalizeVideoPlan
      rw [if_neg hv]
      by_cases hc : fs.contains (cacheVideoArtifactPath p h) = true
      · rw [if_pos hc]
        rfl
      · rw [if_neg hc]
        rfl

theorem normalizeVideo_fastpath_iff_witness :
    (normalizeVideoPlan rFpsZeroMeta "a-v.mp4" "h1" [] = NormAction.sourceUnchanged "a-v.mp4" ↔
      videoFastPathAmended rFpsZeroMeta = true) ∧
    (videoFastPathAmended rFpsZeroMeta = false →
      (normalizeVideoPlan rFpsZeroMeta "a-v.mp4" "h1" []).resolvedPath =
        cacheVideoArtifactPath "a-v.mp4" "h1") :=
  normalizeVideo_fastpath_iff rFpsZeroMeta "a-v.mp4" "h1" []

/-! ## Cache addressing (claims C1 and C2) -/

/-- A probe result that misses the fast path (a 30 fps H.264 source), so
normalization must consult the cache. -/
def vfrMeta : MediaMeta :=
  { duration := 10,
    video := some { codec := some "h264", pixFmt := some "yuv420p", avgFps := 30, rFps := 30 },
    audio := none }

theorem videoFastPath_vfrMeta : videoFastPath vfrMeta = false := by
  simp only [videoFastPath, vfrMeta]
  rw [isNearly_30_24]
  simp

/-- Claim C1 counterexample: two source files with identical bytes (hence the
identical content hash "f00d") whose filenames carry different asset-id
wrappers ("a1" versus "b2") derive different cache artifact paths, and the
second normalization, run with the first artifact already in the cache, is a
second transcode rather than a cache hit — for the audio path as well. -/
theorem cacheArtifact_not_content_addressed :
    cacheVideoArtifactPath "a1-clip.mp4" "f00d" ≠ cacheVideoArtifactPath "b2-clip.mp4" "f00d" ∧
    normalizeVideoPlan vfrMeta "b2-clip.mp4" "f00d"
        [cacheVideoArtifactPath "a1-clip.mp4" "f00d"] =
      NormAction.transcode (cacheVideoArtifactPath "b2-clip.mp4" "f00d") ∧
    transcodeAudioPlan "b2-clip.mp4" "f00d" [cacheAudioArtifactPath "a1-clip.mp4" "f00d"] =
      NormAction.transcode (cacheAudioArtifactPath "b2-clip.mp4" "f00d") := by
  refine ⟨by decide, ?_, by decide⟩
  unfold normalizeVideoPlan
  rw [if_neg (by rw [videoFastPath_vfrMeta]; exact Bool.false_ne_true)]
  rw [if_neg (by decide)]

/-- Claim C1 (amended): the cache artifact path is derived from the pair
(asset id parsed from the source filename, content hash of the source bytes).
Two sources with identical bytes map to the same artifact path whenever their
filenames parse to the same asset id, and under the same asset-id wrapper the
second normalization of the same bytes is a cache hit with no second
toolchain invocation — for `normalizeVideoTo24Fps` and `transcodeAudioToWav`
alike. Under different asset-id wrappers the paths differ and a second
transcode runs (see the counterexample). -/
theorem cacheArtifact_assetId_and_hash (p1 p2 h : String) (meta : MediaMeta)
    (fs : List String)
    (hid : getAssetIdFromPath p1 = getAssetIdFromPath p2)
    (hfp : videoFastPath meta = false) :
    cacheVideoArtifactPath p1 h = cacheVideoArtifactPath p2 h ∧
    cacheAudioArtifactPath p1 h = cacheAudioArtifactPath p2 h ∧
    normalizeVideoPlan meta p2 h (cacheVideoArtifactPath p1 h :: fs) =
      NormAction.cacheHit (cacheVideoArtifactPath p1 h) ∧
    transcodeAudioPlan p2 h (cacheAudioArtifactPath p1 h :: fs) =
      NormAction.cacheHit (cacheAudioArtifactPath p1 h) := by
  have hv : cacheVideoArtifactPath p1 h = cacheVideoArtifactPath p2 h := by
    unfold cacheVideoArtifactPath
    rw [hid]
  have ha : cacheAudioArtifactPath p1 h = cacheAudioArtifactPath p2 h := by
    unfold cacheAudioArtifactPath
    rw [hid]
  have hv' : ¬ videoFastPath meta = true := by
    rw [hfp]
    exact Bool.false_ne_true
  refine ⟨hv, ha, ?_, ?_⟩
  · rw [hv]
    unfold normalizeVideoPlan
    rw [if_neg hv', if_pos (by simp)]
  · rw [ha]
    unfold transcodeAudioPlan
    rw [if_pos (by simp)]

theorem cacheArtifact_assetId_and_hash_witness :
    cacheVideoArtifactPath "a1-x.mp4" "c0de" = cacheVideoArtifactPath "a1-y.mp4" "c0de" ∧
    cacheAudioArtifactPath "a1-x.mp4" "c0de" = cacheAudioArtifactPath "a1-y.mp4" "c0de" ∧
    normalizeVideoPlan vfrMeta "a1-y.mp4" "c0de"
        (cacheVideoArtifactPath "a1-x.mp4" "c0de" :: []) =
      NormAction.cacheHit (cacheVideoArtifactPath "a1-x.mp4" "c0de") ∧
    transcodeAudioPlan "a1-y.mp4" "c0de" (cacheAudioArtifactPath "a1-x.mp4" "c0de" :: []) =
      NormAction.cacheHit (cacheAudioArtifactPath "a1-x.mp4" "c0de") :=
  cacheArtifact_assetId_and_hash "a1-x.mp4" "a1-y.mp4" "c0de" vfrMeta []
    (by decide) videoFastPath_vfrMeta

/-- Claim C2 (code bug): the output location `normalizeVideoTo24Fps` hands to
ffmpeg is the final cache artifact path itself (no temporary name, no rename
on success), so a transcode that fails or is killed mid-write leaves the
partially written file at the final path, and the next normalization of the
same input serves it as a valid cache hit. -/
theorem failedTranscode_leaves_final_cache_path :
    ffmpegTarget (normalizeVideoPlan vfrMeta "a1-clip.mp4" "f00d" []) =
      some (cacheVideoArtifactPath "a1-clip.mp4" "f00d") ∧
    normalizeVideoPlan vfrMeta "a1-clip.mp4" "f00d"
        (cacheAfterFailedTranscode (normalizeVideoPlan vfrMeta "a1-clip.mp4" "f00d" []) []) =
      NormAction.cacheHit (cacheVideoArtifactPath "a1-clip.mp4" "f00d") := by
  have hplan : normalizeVideoPlan vfrMeta "a1-clip.mp4" "f00d" [] =
      NormAction.transcode (cacheVideoArtifactPath "a1-clip.mp4" "f00d") := by
    unfold normalizeVideoPlan
    rw [if_neg (by rw [videoFastPath_vfrMeta]; exact Bool.false_ne_true)]
    rw [if_neg (by decide)]
  constructor
  · rw [hplan]
    rfl
  · rw [hplan]
    simp only [cacheAfterFailedTranscode]
    unfold normalizeVideoPlan
    rw [if_neg (by rw [videoFastPath_vfrMeta]; exact Bool.false_ne_true)]
    rw [if_pos (by decide)]

/-! ## Progress mapping, failure finalization, queued cancellation (C6, C7, C8) -/

/-- Claim C6: a render-progress callback with fractional progress p, arriving
while the cancellation flag is clear, stores exactly
min(100, max(5, round(5 + p * 95))) — always within [5, 100] — and changes no
other field; when the flag is already set the callback leaves the job record
unchanged. -/
theorem render_progress_mapping (p : ℚ) (j : Job) :
    onRenderProgress true p j = j ∧
    (onRenderProgress false p j).progress = min 100 (max 5 (round ((5 : ℚ) + p * 95))) ∧
    5 ≤ (onRenderProgress false p j).progress ∧
    (onRenderProgress false p j).progress ≤ 100 ∧
    (onRenderProgress false p j).status = j.status ∧
    (onRenderProgress false p j).error = j.error ∧
    (onRenderProgress false p j).outputUrl = j.outputUrl := by
  refine ⟨rfl, rfl, ?_, ?_, rfl, rfl, rfl⟩
  · show (5 : ℤ) ≤ min 100 (max 5 (round ((5 : ℚ) + p * 95)))
    exact le_min (by norm_num) (le_max_left _ _)
  · show min 100 (max 5 (round ((5 : ℚ) + p * 95))) ≤ (100 : ℤ)
    exact min_le_left _ _

/-- Claim C7: when the render pipeline for the active job throws, the
terminal record depends only on the controller's cancellation flag: flag set
finalizes the job as cancelled with the standard cancellation message, flag
clear finalizes it as failed with the captured error message — a failure
observed under cancellation is never surfaced as failed. -/
theorem render_failure_finalization (s : ServerState) (jid msg : String)
    (job : Job) (c : Controller)
    (hjob : alGet jid s.jobs = some job) (hc : alGet jid s.controllers = some c) :
    alGet jid (finishErrorState jid msg s).jobs =
      some { job with
        status := if c.cancelled then JStatus.cancelled else JStatus.failed,
        error := some (if c.cancelled then cancelMessage else msg) } := by
  have hcc : controllerCancelled jid s = c.cancelled := by
    unfold controllerCancelled
    rw [hc]
  have hjobs : (finishErrorState jid msg s).jobs =
      updateJob jid
        (fun j => { j with
          status := (finalizeOnError (controllerCancelled jid s) msg).1,
          error := some (finalizeOnError (controllerCancelled jid s) msg).2 }) s.jobs := rfl
  rw [hjobs, alGet_updateJob, if_pos rfl, hjob, hcc]
  cases hcv : c.cancelled <;> simp [finalizeOnError, Option.getD]

/-- A state whose active job "r1" has been flagged for cancellation. -/
def c7State : ServerState :=
  { jobs := [("r1", { status := JStatus.rendering, progress := 40, error := none, outputUrl := none })],
    controllers := [("r1", { cancelled := true })],
    queue := [],
    isRendering := true,
    active := some "r1" }

theorem render_failure_finalization_witness :
    alGet "r1" (finishErrorState "r1" "boom" c7State).jobs =
      some { status := if (true : Bool) then JStatus.cancelled else JStatus.failed,
             progress := 40,
             error := some (if (true : Bool) then cancelMessage else "boom"),
             outputUrl := none } :=
  render_failure_finalization c7State "r1" "boom"
    { status := JStatus.rendering, progress := 40, error := none, outputUrl := none }
    { cancelled := true } (by decide) (by decide)

theorem removeFirst_split (jid : String) :
    ∀ q : List String, jid ∈ q →
      ∃ l1 l2, q = l1 ++ jid :: l2 ∧ jid ∉ l1 ∧ removeFirst jid q = l1 ++ l2
  | [], h => absurd h (List.not_mem_nil jid)
  | x :: xs, h => by
    by_cases hx : x = jid
    · subst hx
      exact ⟨[], xs, rfl, List.not_mem_nil x, by simp [removeFirst]⟩
    · have hmem : jid ∈ xs := by
        rcases List.mem_cons.mp h with h1 | h2
        · exact absurd h1.symm hx
        · exact h2
      obtain ⟨l1, l2, hq, hnot, hrm⟩ := removeFirst_split jid xs hmem
      refine ⟨x :: l1, l2, by rw [hq]; rfl, ?_, ?_⟩
      · intro hc
        rcases List.mem_cons.mp hc with h1 | h2
        · exact hx h1.symm
        · exact hnot h2
      · simp [removeFirst, hx, hrm]

/-- Claim C8: `cancelJob` on a job that is still in the queue (status queued,
no controller registered) returns ok, immediately marks the job cancelled,
splices exactly its first queue occurrence out (preserving the relative order
of the remaining queued jobs), and touches neither the controllers map nor
the busy flag. -/
theorem cancelJob_queued (s : ServerState) (jid : String) (job : Job)
    (hjob : alGet jid s.jobs = some job) (hst : job.status = JStatus.queued)
    (hctl : alGet jid s.controllers = none) (hq : jid ∈ s.queue) :
    (cancelJob jid s).1.ok = true ∧
    alGet jid (cancelJob jid s).2.jobs =
      some { job with status := JStatus.cancelled, error := some cancelMessage } ∧
    (∃ l1 l2, s.queue = l1 ++ jid :: l2 ∧ jid ∉ l1 ∧
      (cancelJob jid s).2.queue = l1 ++ l2) ∧
    (cancelJob jid s).2.controllers = s.controllers ∧
    (cancelJob jid s).2.isRendering = s.isRendering := by
  have hflag : cancelFlagState jid s = s := by
    unfold cancelFlagState
    rw [hctl]
  have h1 : ¬ job.status = JStatus.completed := by
    rw [hst]
    decide
  have h2 : ¬ (job.status = JStatus.failed ∨ job.status = JStatus.cancelled) := by
    rw [hst]
    decide
  have hcontains : (cancelFlagState jid s).queue.contains jid = true := by
    rw [hflag]
    exact List.elem_iff.mpr hq
  have hcancel : cancelJob jid s =
      (⟨true, "Job cancelled."⟩, cancelQueueState jid (cancelFlagState jid s)) := by
    unfold cancelJob
    rw [hjob]
    simp only [if_neg h1, if_neg h2, if_pos hcontains]
  rw [hcancel, hflag]
  refine ⟨rfl, ?_, ?_, rfl, rfl⟩
  · have hjobs : (cancelQueueState jid s).jobs =
        updateJob jid
          (fun j => { j with status := JStatus.cancelled, error := some cancelMessage })
          s.jobs := rfl
    rw [hjobs, alGet_updateJob, if_pos rfl, hjob]
    rfl
  · obtain ⟨l1, l2, hsplit, hnot, hrm⟩ := removeFirst_split jid s.queue hq
    exact ⟨l1, l2, hsplit, hnot, hrm⟩

/-- A state with an active job "w" and two queued jobs "q1", "q2". -/
def c8State : ServerState :=
  { jobs := [("w", { status := JStatus.rendering, progress := 10, error := none, outputUrl := none }),
             ("q1", { status := JStatus.queued, progress := 0, error := none, outputUrl := none }),
             ("q2", { status := JStatus.queued, progress := 0, error := none, outputUrl := none })],
    controllers := [("w", { cancelled := false })],
    queue := ["q1", "q2"],
    isRendering := true,
    active := some "w" }

theorem cancelJob_queued_witness :
    (cancelJob "q1" c8State).1.ok = true ∧
    alGet "q1" (cancelJob "q1" c8State).2.jobs =
      some { status := JStatus.cancelled, progress := 0, error := some cancelMessage,
             outputUrl := none } ∧
    (∃ l1 l2, c8State.queue = l1 ++ "q1" :: l2 ∧ "q1" ∉ l1 ∧
      (cancelJob "q1" c8State).2.queue = l1 ++ l2) ∧
    (cancelJob "q1" c8State).2.controllers = c8State.controllers ∧
    (cancelJob "q1" c8State).2.isRendering = c8State.isRendering :=
  cancelJob_queued c8State "q1"
    { status := JStatus.queued, progress := 0, error := none, outputUrl := none }
    (by decide) rfl (by decide) (by decide)

/-! ## Cache clearing (claim C9) -/

theorem isEmpty_true_iff {α : Type} (l : List α) : l.isEmpty = true ↔ l = [] := by
  cases l <;> simp

/-- Claim C9: POST /api/cache/clear without force is refused with 409 exactly
when active work exists — the busy flag is set, a controller is registered,
the queue is non-empty, or some job is in a non-terminal status — and on
refusal neither the in-memory state (jobs, queue, controllers, flag) nor the
on-disk state changes and no controller is cancelled; with force set the
request proceeds regardless and cancels every registered controller first. -/
theorem clearCache_conflict (force : Bool) (s : ServerState) (d : DiskState) :
    ((clearCacheEndpoint force s d).response = ClearResponse.conflict409 ↔
      (hasActiveWork s = true ∧ force = false)) ∧
    ((clearCacheEndpoint force s d).response = ClearResponse.conflict409 →
      clearCacheEndpoint force s d =
        { response := ClearResponse.conflict409, state := s, disk := d,
          cancelledControllers := [] }) ∧
    (force = true →
      (clearCacheEndpoint force s d).response = ClearResponse.cleared ∧
      (clearCacheEndpoint force s d).cancelledControllers = s.controllers.map Prod.fst) ∧
    (hasActiveWork s = true ↔
      (s.isRendering = true ∨ s.controllers ≠ [] ∨ s.queue ≠ [] ∨
        ∃ e ∈ s.jobs, isNonTerminalStatus e.2.status = true)) := by
  have hiff : hasActiveWork s = true ↔
      (s.isRendering = true ∨ s.controllers ≠ [] ∨ s.queue ≠ [] ∨
        ∃ e ∈ s.jobs, isNonTerminalStatus e.2.status = true) := by
    unfold hasActiveWork
    by_cases hcond : (s.isRendering || !s.controllers.isEmpty || !s.queue.isEmpty) = true
    · rw [if_pos hcond]
      simp only [Bool.or_eq_true, Bool.not_eq_true'] at hcond
      constructor
      · intro _
        rcases hcond with (hr | hcl) | hql
        · exact Or.inl hr
        · refine Or.inr (Or.inl ?_)
          intro hnil
          rw [hnil] at hcl
          exact Bool.noConfusion hcl
        · refine Or.inr (Or.inr (Or.inl ?_))
          intro hnil
          rw [hnil] at hql
          exact Bool.noConfusion hql
      · intro _
        rfl
    · rw [if_neg hcond]
      simp only [Bool.or_eq_true, not_or, Bool.not_eq_true'] at hcond
      obtain ⟨⟨hr, hcl⟩, hql⟩ := hcond
      rw [List.any_eq_true]
      rw [Bool.not_eq_false] at hcl hql
      constructor
      · intro hex
        exact Or.inr (Or.inr (Or.inr hex))
      · intro hor
        rcases hor with hcase | hcase | hcase | hcase
        · exact absurd hcase hr
        · exact absurd ((isEmpty_true_iff s.controllers).mp hcl) hcase
        · exact absurd ((isEmpty_true_iff s.queue).mp hql) hcase
        · exact hcase
  cases force with
  | true =>
    have hc : (hasActiveWork s && !true) = false := by simp
    have hend : clearCacheEndpoint true s d =
        { response := ClearResponse.cleared, state := initialState, disk := { files := [] },
          cancelledControllers := s.controllers.map Prod.fst } := by
      unfold clearCacheEndpoint
      rw [if_neg (by rw [hc]; exact Bool.false_ne_true)]
      rfl
    rw [hend]
    refine ⟨?_, ?_, ?_, hiff⟩
    · constructor
      · intro hcontra
        exact ClearResponse.noConfusion hcontra
      · intro hcontra
        exact Bool.noConfusion hcontra.2
    · intro hcontra
      exact ClearResponse.noConfusion hcontra
    · intro _
      exact ⟨rfl, rfl⟩
  | false =>
    by_cases hA : hasActiveWork s = true
    · have hc : (hasActiveWork s && !false) = true := by rw [hA]; rfl
      have hend : clearCacheEndpoint false s d =
          { response := ClearResponse.conflict409, state := s, disk := d,
            cancelledControllers := [] } := by
        unfold clearCacheEndpoint
        rw [if_pos hc]
      rw [hend]
      refine ⟨?_, ?_, ?_, hiff⟩
      · exact ⟨fun _ => ⟨hA, rfl⟩, fun _ => rfl⟩
      · intro _
        rfl
      · intro hcontra
        exact Bool.noConfusion hcontra
    · have hA' : hasActiveWork s = false := by
        cases hw : hasActiveWork s
        · rfl
        · exact absurd hw hA
      have hc : (hasActiveWork s && !false) = false := by rw [hA']; rfl
      have hend : clearCacheEndpoint false s d =
          { response := ClearResponse.cleared, state := initialState, disk := { files := [] },
            cancelledControllers := [] } := by
        unfold clearCacheEndpoint
        rw [if_neg (by rw [hc]; exact Bool.false_ne_true)]
        rfl
      rw [hend]
      refine ⟨?_, ?_, ?_, hiff⟩
      · constructor
        · intro hcontra
          exact ClearResponse.noConfusion hcontra
        · intro hcontra
          exact absurd hcontra.1 hA
      · intro hcontra
        exact ClearResponse.noConfusion hcontra
      · intro hcontra
        exact Bool.noConfusion hcontra

/-- A busy state: one rendering job with its controller registered. -/
def c9State : ServerState :=
  { jobs := [("x", { status := JStatus.rendering, progress := 10, error := none, outputUrl := none })],
    controllers := [("x", { cancelled := false })],
    queue := [],
    isRendering := true,
    active := some "x" }

/-- Some derived files on disk. -/
def c9Disk : DiskState :=
  { files := ["renders/cache/video/a-b-cfr24.mp4"] }

theorem clearCache_conflict_witness :
    ((clearCacheEndpoint false c9State c9Disk).response = ClearResponse.conflict409 ↔
      (hasActiveWork c9State = true ∧ false = false)) ∧
    ((clearCacheEndpoint false c9State c9Disk).response = ClearResponse.conflict409 →
      clearCacheEndpoint false c9State c9Disk =
        { response := ClearResponse.conflict409, state := c9State, disk := c9Disk,
          cancelledControllers := [] }) ∧
    (false = true →
      (clearCacheEndpoint false c9State c9Disk).response = ClearResponse.cleared ∧
      (clearCacheEndpoint false c9State c9Disk).cancelledControllers =
        c9State.controllers.map Prod.fst) ∧
    (hasActiveWork c9State = true ↔
      (c9State.isRendering = true ∨ c9State.controllers ≠ [] ∨ c9State.queue ≠ [] ∨
        ∃ e ∈ c9State.jobs, isNonTerminalStatus e.2.status = true)) :=
  clearCache_conflict false c9State c9Disk

/-! ## Volume gain resolution (claim C10) -/

/-- Claim C10: `resolveVolumeGain` clamps only the decibel path: a finite
volumeDb resolves to the gain 10 ^ (clamp(volumeDb, -20, 20) / 20), which
always lies within [0.1, 10]; with volumeDb absent or non-finite, a finite
linear volume field is returned completely unclamped; with neither field (or
no bgm at all) the gain defaults to 1. -/
theorem resolveVolumeGain_cases (b : Bgm) (q : ℚ) :
    (b.volumeDb = some q →
      resolveVolumeGain (some b) = Gain.db (clampDb q) ∧
      (-20 : ℚ) ≤ clampDb q ∧ clampDb q ≤ 20 ∧
      (1 / 10 : ℝ) ≤ (10 : ℝ) ^ (((clampDb q : ℚ) : ℝ) / 20) ∧
      (10 : ℝ) ^ (((clampDb q : ℚ) : ℝ) / 20) ≤ 10) ∧
    (b.volumeDb = none → b.volume = some q →
      resolveVolumeGain (some b) = Gain.linear q) ∧
    (b.volumeDb = none → b.volume = none →
      resolveVolumeGain (some b) = Gain.unit) ∧
    resolveVolumeGain none = Gain.unit := by
  refine ⟨?_, ?_, ?_, rfl⟩
  · intro hdb
    have h1 : clampDb q ≤ 20 := min_le_left _ _
    have h2 : (-20 : ℚ) ≤ clampDb q := le_min (by norm_num) (le_max_left _ _)
    have hcast1 : ((clampDb q : ℚ) : ℝ) ≤ 20 := by exact_mod_cast h1
    have hcast2 : (-20 : ℝ) ≤ ((clampDb q : ℚ) : ℝ) := by exact_mod_cast h2
    have he1 : (-1 : ℝ) ≤ ((clampDb q : ℚ) : ℝ) / 20 := by linarith
    have he2 : ((clampDb q : ℚ) : ℝ) / 20 ≤ 1 := by linarith
    have hten : (1 : ℝ) ≤ 10 := by norm_num
    have hlow : (10 : ℝ) ^ (-1 : ℝ) ≤ (10 : ℝ) ^ (((clampDb q : ℚ) : ℝ) / 20) :=
      Real.rpow_le_rpow_of_exponent_le hten he1
    have hhigh : (10 : ℝ) ^ (((clampDb q : ℚ) : ℝ) / 20) ≤ (10 : ℝ) ^ (1 : ℝ) :=
      Real.rpow_le_rpow_of_exponent_le hten he2
    have hneg1 : (10 : ℝ) ^ (-1 : ℝ) = 1 / 10 := by
      rw [Real.rpow_neg_one]
      norm_num
    have hone : (10 : ℝ) ^ (1 : ℝ) = 10 := Real.rpow_one 10
    refine ⟨?_, h2, h1, ?_, ?_⟩
    · simp only [resolveVolumeGain, hdb]
    · calc (1 / 10 : ℝ) = (10 : ℝ) ^ (-1 : ℝ) := hneg1.symm
        _ ≤ (10 : ℝ) ^ (((clampDb q : ℚ) : ℝ) / 20) := hlow
    · calc (10 : ℝ) ^ (((clampDb q : ℚ) : ℝ) / 20) ≤ (10 : ℝ) ^ (1 : ℝ) := hhigh
        _ = 10 := hone
  · intro hdb hvol
    simp only [resolveVolumeGain, hdb, hvol]
  · intro hdb hvol
    simp only [resolveVolumeGain, hdb, hvol]

theorem resolveVolumeGain_cases_witness :
    ((⟨some 40, none⟩ : Bgm).volumeDb = some 40 →
      resolveVolumeGain (some ⟨some 40, none⟩) = Gain.db (clampDb 40) ∧
      (-20 : ℚ) ≤ clampDb 40 ∧ clampDb 40 ≤ 20 ∧
      (1 / 10 : ℝ) ≤ (10 : ℝ) ^ (((clampDb 40 : ℚ) : ℝ) / 20) ∧
      (10 : ℝ) ^ (((clampDb 40 : ℚ) : ℝ) / 20) ≤ 10) ∧
    ((⟨some 40, none⟩ : Bgm).volumeDb = none → (⟨some 40, none⟩ : Bgm).volume = some 40 →
      resolveVolumeGain (some ⟨some 40, none⟩) = Gain.linear 40) ∧
    ((⟨some 40, none⟩ : Bgm).volumeDb = none → (⟨some 40, none⟩ : Bgm).volume = none →
      resolveVolumeGain (some ⟨some 40, none⟩) = Gain.unit) ∧
    resolveVolumeGain none = Gain.unit :=
  resolveVolumeGain_cases ⟨some 40, none⟩ 40

end RenderServer